import Mathlib

/-!
Verification of the grammar_ru scaffolding layer: the `NlpAnalyzer` /
`NlpAlgorithm` base contracts, the `NlpAnalyzationPipeline` orchestration and
the `PyMorphAnalyzer` stub, shallowly embedded from the Python sources.

Tables (pandas DataFrames) are embedded as a list of column names plus a list
of rows, each row an association list from column name to cell value.  In-place
mutation of a table is embedded by explicit state passing: a Python method that
mutates its DataFrame argument becomes a Lean function returning the updated
table (paired with the raised exception, if any, since a Python exception
leaves the mutated object in the caller's hands).
-/

namespace GrammarRu

/-- A cell value of a table: pandas cells here are booleans, integers,
strings, or missing values (NaN / None), embedded as `null`. -/
inductive Value where
  | bool : Bool → Value
  | int : Int → Value
  | str : String → Value
  | null : Value
deriving DecidableEq, Repr

/-- A table row: an association list from column name to cell value. -/
abbrev Row := List (String × Value)

/-- Lookup in an association list keyed by strings (first match wins). -/
def alistGet {α : Type} (m : List (String × α)) (k : String) : Option α :=
  (m.find? (fun p => decide (p.1 = k))).map (fun p => p.2)

/-- The value of column `c` in row `r`, if present. -/
def Row.get (r : Row) (c : String) : Option Value :=
  alistGet r c

/-- Writing a cell: any previous entry for the column is dropped and the new
value appended. -/
def Row.set (r : Row) (c : String) (v : Value) : Row :=
  r.filter (fun p => decide (p.1 ≠ c)) ++ [(c, v)]

/-- A table: column names plus rows.  Embeds a pandas DataFrame. -/
structure DF where
  cols : List String
  rows : List Row
deriving DecidableEq, Repr

/-- Column assignment `df[c] = f(row)`: sets the cell in every row and adds
the column name if it is new.  Embeds pandas column assignment. -/
def DF.setColumn (df : DF) (c : String) (f : Row → Value) : DF :=
  { cols := if c ∈ df.cols then df.cols else df.cols ++ [c],
    rows := df.rows.map (fun r => Row.set r c (f r)) }

/-- An analyzer-output table: rows keyed by an index (the tuple of join-key
values), as produced by `_analyze_inner` and consumed by `DataFrame.join`. -/
structure OutDF where
  cols : List String
  rows : List (List Value × Row)
deriving DecidableEq, Repr

/-- One row of a left join: the row is extended by the `other` row whose
index equals the row's key tuple (read off the `keyCols` columns), or by
nulls in each of `other`'s columns when no index entry matches. -/
def joinRow (keyCols : List String) (other : OutDF) (r : Row) : Row :=
  match other.rows.find?
      (fun kr => decide (kr.1 = keyCols.map (fun c => (Row.get r c).getD Value.null))) with
  | some kr => r ++ kr.2
  | none => r ++ other.cols.map (fun c => (c, Value.null))

/-- Left join of `df` with the index-keyed table `other` on the columns
`keyCols` of `df`: every row of `df` is kept once and extended by `joinRow`.
Embeds `DataFrame.join(other, on=keyCols)` for a uniquely keyed `other`
(which is the analyzer-output contract of the spec). -/
def DF.join (df : DF) (keyCols : List String) (other : OutDF) : DF :=
  { cols := df.cols ++ other.cols,
    rows := df.rows.map (joinRow keyCols other) }

/-- Modelled from the spec: `validations.WordCoordinates`, the coordinate
columns every word-row table must carry (paragraph id, word id and the
sentence field); the `validations` module is repository code not present in
the sources. -/
def WordCoordinates : List String :=
  ["word_id", "sentence_id", "paragraph_id"]

/-- Modelled from the spec: `validations.ensure_df_contains(required, df)`
fails with a validation error if any required column is absent from the
table; the `validations` module is repository code not present in the
sources. -/
def ensure_df_contains (required : List String) (df : DF) : Except String Unit :=
  if required.all (fun c => decide (c ∈ df.cols)) then .ok ()
  else .error "validation error: missing required columns"

/-- The message of the Python `NotImplementedError` raised by the abstract
inner steps of the base classes. -/
def notImplementedMsg : String := "NotImplementedError"

/-- NlpAnalyzer (src/grammar_ru/common/nlp_analyzer.py): join-key columns,
extra required columns, and the `_analyze_inner` step, whose base-class body
raises `NotImplementedError` (the default field value embeds a subclass that
does not override it).  The inner step may return no table at all (Python
`None`), hence the `Option`. -/
structure NlpAnalyzer where
  join_by : List String
  required_columns : List String := []
  _analyze_inner : DF → Except String (Option OutDF) := fun _ => .error notImplementedMsg

/-- NlpAnalyzer.validate_input: coordinate columns plus the declared required
columns must be present. -/
def NlpAnalyzer.validate_input (an : NlpAnalyzer) (df : DF) : Except String Unit :=
  ensure_df_contains (WordCoordinates ++ an.required_columns) df

/-- NlpAnalyzer.analyze: validate, then run the inner step. -/
def NlpAnalyzer.analyze (an : NlpAnalyzer) (df : DF) : Except String (Option OutDF) :=
  match an.validate_input df with
  | .error e => .error e
  | .ok _ => an._analyze_inner df

/-- NlpAnalyzer.apply: `df.join(self.analyze(df), on=self._join_by)`.  When
`analyze` returns `None`, pandas `join` raises a `TypeError`. -/
def NlpAnalyzer.apply (an : NlpAnalyzer) (df : DF) : Except String DF :=
  match an.analyze df with
  | .error e => .error e
  | .ok none => .error "TypeError"
  | .ok (some out) => .ok (DF.join df an.join_by out)

/-- NlpAlgorithm (src/grammar_ru/common/architecture/nlp_algorithm.py):
status/suggest column names, required columns, and the `_run_inner` step,
whose base-class body raises `NotImplementedError` (the default field value
embeds a subclass that does not override it).  `_run_inner` mutates the table
in place, so its embedding returns the updated table state paired with the
raised exception message, if any. -/
structure NlpAlgorithm where
  status_column : String
  suggest_column : Option String
  required_columns : List String := []
  _run_inner : DF → DF × Option String := fun df => (df, some notImplementedMsg)

/-- NlpAlgorithm.get_status_column. -/
def NlpAlgorithm.get_status_column (alg : NlpAlgorithm) : String :=
  alg.status_column

/-- NlpAlgorithm.get_suggest_column. -/
def NlpAlgorithm.get_suggest_column (alg : NlpAlgorithm) : Option String :=
  alg.suggest_column

/-- NlpAlgorithm.put_check_requested (`self` is unused in the source): adds
the boolean column `check_requested`, every row true when no paragraph set is
given, otherwise `df.paragraph_id.isin(paragraphs_to_check)`.  Mutates and
returns the same table: the embedding returns the updated state. -/
def NlpAlgorithm.put_check_requested (df : DF) (paragraphs_to_check : Option (List Value)) : DF :=
  match paragraphs_to_check with
  | none => df.setColumn "check_requested" (fun _ => Value.bool true)
  | some s => df.setColumn "check_requested"
      (fun r => Value.bool (decide ((Row.get r "paragraph_id").getD Value.null ∈ s)))

/-- NlpAlgorithm.validate_input: coordinates, `check_requested` and the
declared required columns must be present. -/
def NlpAlgorithm.validate_input (alg : NlpAlgorithm) (df : DF) : Except String Unit :=
  ensure_df_contains (WordCoordinates ++ ["check_requested"] ++ alg.required_columns) df

/-- NlpAlgorithm.run: put_check_requested (with its default `None` argument),
then validate_input, then `_run_inner`, in that order; the result is the
table state the caller's variable refers to afterwards, paired with the
raised exception message, if any. -/
def NlpAlgorithm.run (alg : NlpAlgorithm) (df : DF) : DF × Option String :=
  let df1 := NlpAlgorithm.put_check_requested df none
  match alg.validate_input df1 with
  | .error e => (df1, some e)
  | .ok _ => alg._run_inner df1

/-- Modelled from the spec: the external paragraph separator service
(`Separator.separate_paragraphs`), repository code not present in the
sources, converts raw text lines into a word-row table with the coordinate
columns populated (one paragraph per line, one row per whitespace-separated
word). -/
def Separator.separate_paragraphs (text : List String) : DF :=
  { cols := WordCoordinates ++ ["word"],
    rows := (text.enum.map (fun pi =>
      (pi.2.splitOn " ").enum.map (fun wi =>
        [("word_id", Value.int (Int.ofNat wi.1)),
         ("sentence_id", Value.int (Int.ofNat pi.1)),
         ("paragraph_id", Value.int (Int.ofNat pi.1)),
         ("word", Value.str wi.2)]))).flatten }

/-- Modelled from the spec: `Separator.separate_string` converts a raw
string to a word-row table, as a single paragraph. -/
def Separator.separate_string (s : String) : DF :=
  Separator.separate_paragraphs [s]

/-- NlpAlgorithm.run_on_text: builds the table from the text lines and runs
the algorithm on it; the `paragraphs_to_check` parameter appears in the
source signature but is never forwarded to `run`. -/
def NlpAlgorithm.run_on_text (alg : NlpAlgorithm) (text : List String)
    (paragraphs_to_check : Option (List Value)) : DF × Option String :=
  let df := Separator.separate_paragraphs text
  alg.run df

/-- NlpAlgorithm.run_on_string: builds the table from the string and runs the
algorithm on it; the `paragraphs_to_check` parameter appears in the source
signature but is never forwarded to `run`. -/
def NlpAlgorithm.run_on_string (alg : NlpAlgorithm) (s : String)
    (paragraphs_to_check : Option (List Value)) : DF × Option String :=
  let df := Separator.separate_string s
  alg.run df

/-- Modelled from the spec: the data source abstraction (`tg.common`,
repository code not present in the sources) exposes `get_data()` returning
records convertible to a table; the conversion `pd.DataFrame(...)` is the
identity on the embedded table. -/
structure DataSource where
  get_data : DF

/-- Modelled from the spec: `MockDfDataSource` wraps an existing in-memory
table as a data source. -/
def MockDfDataSource (df : DF) : DataSource :=
  { get_data := df }

/-- Insertion into a Python dict embedded as an association list: an existing
key's value is overwritten in place, a new key is appended. -/
def dictInsert {α : Type} (m : List (String × α)) (k : String) (v : α) : List (String × α) :=
  if m.any (fun p => decide (p.1 = k)) then
    m.map (fun p => if p.1 = k then (k, v) else p)
  else m ++ [(k, v)]

/-- Conversion `dict(pairs)` of a list of pairs: left-to-right insertion,
later pairs with the same key overwrite earlier ones. -/
def dictOfList {α : Type} (l : List (String × α)) : List (String × α) :=
  l.foldl (fun m p => dictInsert m p.1 p.2) []

/-- Modelled from the spec: the external featurization job (`tg.common`,
repository code not present in the sources) is packaged from a source and a
dict of named featurizers. -/
structure FeaturizationJob where
  source : DataSource
  featurizers : List (String × NlpAnalyzer)

/-- NlpAnalyzationPipeline (src/grammar_ru/common/nlp_analyzation_pipeline.py):
an ordered list of (name, analyzer) pairs. -/
structure NlpAnalyzationPipeline where
  analyzers : List (String × NlpAnalyzer)

/-- NlpAnalyzationPipeline.source_to_featurization_job: packages the analyzer
list as the dict of featurizers of a featurization job over the source. -/
def NlpAnalyzationPipeline.source_to_featurization_job
    (p : NlpAnalyzationPipeline) (source : DataSource) : FeaturizationJob :=
  { source := source, featurizers := dictOfList p.analyzers }

/-- NlpAnalyzationPipeline.df_to_featurization_job: wraps the table in a mock
data source and delegates. -/
def NlpAnalyzationPipeline.df_to_featurization_job
    (p : NlpAnalyzationPipeline) (df : DF) : FeaturizationJob :=
  p.source_to_featurization_job (MockDfDataSource df)

/-- The loop body of `analyze_dataframe`: `results[name] = analyzer.apply(df)`
over the list of analyzers, with the Python-dict overwrite semantics of
`dictInsert`; an exception from `apply` aborts the loop. -/
def analyzeDfLoop (df : DF) :
    List (String × NlpAnalyzer) → List (String × DF) → Except String (List (String × DF))
  | [], acc => .ok acc
  | pr :: rest, acc =>
    match pr.2.apply df with
    | .error e => .error e
    | .ok out => analyzeDfLoop df rest (dictInsert acc pr.1 out)

/-- NlpAnalyzationPipeline.analyze_dataframe: runs every analyzer's `apply`
on the same input table and collects the results in a dict keyed by the
analyzer names. -/
def NlpAnalyzationPipeline.analyze_dataframe
    (p : NlpAnalyzationPipeline) (df : DF) : Except String (List (String × DF)) :=
  analyzeDfLoop df p.analyzers []

/-- NlpAnalyzationPipeline.analyze: pulls the table from the data source and
delegates to `analyze_dataframe`. -/
def NlpAnalyzationPipeline.analyze
    (p : NlpAnalyzationPipeline) (source : DataSource) : Except String (List (String × DF)) :=
  p.analyze_dataframe source.get_data

/-- Lookup in the embedded Python dict. -/
def dictGet (m : List (String × DF)) (k : String) : Option DF :=
  alistGet m k

/-- PyMorphAnalyzer (src/grammar_ru/analyzers/pymorph/pymorph_analyzer.py):
joins by `word_id`, no extra required columns, and its `_analyze_inner`
override is `pass`, i.e. it returns Python `None` and raises nothing. -/
def PyMorphAnalyzer : NlpAnalyzer :=
  { join_by := ["word_id"],
    required_columns := [],
    _analyze_inner := fun _ => .ok none }

theorem alistGet_append_of_some {α : Type} {m : List (String × α)} {k : String} {v : α}
    (l : List (String × α)) (h : alistGet m k = some v) :
    alistGet (m ++ l) k = some v := by
  unfold alistGet at h ⊢
  rcases hf : m.find? (fun p => decide (p.1 = k)) with _ | x
  · rw [hf] at h
    simp at h
  · rw [hf] at h
    rw [List.find?_append, hf]
    simpa using h

theorem alistGet_append_of_none {α : Type} {m : List (String × α)} {k : String}
    (l : List (String × α)) (h : alistGet m k = none) :
    alistGet (m ++ l) k = alistGet l k := by
  unfold alistGet at h ⊢
  rcases hf : m.find? (fun p => decide (p.1 = k)) with _ | x
  · rw [List.find?_append, hf, Option.none_or]
  · rw [hf] at h
    simp at h

theorem find?_key_of_not_mem {κ α : Type} [DecidableEq κ] {m : List (κ × α)} {k : κ}
    (h : k ∉ m.map (fun p => p.1)) :
    m.find? (fun p => decide (p.1 = k)) = none := by
  rw [List.find?_eq_none]
  intro x hx
  simp only [decide_eq_true_eq]
  intro he
  exact h (List.mem_map.mpr ⟨x, hx, he⟩)

theorem alistGet_of_not_mem_keys {α : Type} {m : List (String × α)} {k : String}
    (h : k ∉ m.map (fun p => p.1)) : alistGet m k = none := by
  unfold alistGet
  rw [find?_key_of_not_mem h]
  rfl

theorem alistGet_map_null {cs : List String} {c : String} (h : c ∈ cs) :
    alistGet (cs.map (fun c2 => (c2, Value.null))) c = some Value.null := by
  induction cs with
  | nil => simp at h
  | cons a t ih =>
    by_cases ha : a = c
    · subst ha
      simp [alistGet]
    · have h2 : c ∈ t := by
        rcases List.mem_cons.mp h with h1 | h1
        · exact absurd h1.symm ha
        · exact h1
      unfold alistGet at ih ⊢
      rw [List.map_cons, List.find?_cons_of_neg]
      · exact ih h2
      · simp [ha]

theorem map_eq_self_of_fix {α : Type} {l : List α} {f : α → α}
    (h : ∀ x ∈ l, f x = x) : l.map f = l := by
  induction l with
  | nil => rfl
  | cons a t ih =>
    rw [List.map_cons, h a (List.mem_cons_self a t),
      ih (fun x hx => h x (List.mem_cons_of_mem a hx))]

theorem forall2_map_self {α β : Type} {P : α → β → Prop} {l : List α} {f : α → β}
    (h : ∀ a ∈ l, P a (f a)) : List.Forall₂ P l (l.map f) := by
  induction l with
  | nil => exact List.Forall₂.nil
  | cons a t ih =>
    rw [List.map_cons]
    exact List.Forall₂.cons (h a (List.mem_cons_self a t))
      (ih (fun x hx => h x (List.mem_cons_of_mem a hx)))

theorem Row.get_set_self (r : Row) (c : String) (v : Value) :
    Row.get (Row.set r c v) c = some v := by
  unfold Row.get Row.set alistGet
  rw [List.find?_append]
  have h1 : (r.filter (fun p => decide (p.1 ≠ c))).find? (fun p => decide (p.1 = c)) = none := by
    rw [List.find?_eq_none]
    intro x hx
    have h2 := (List.mem_filter.mp hx).2
    simp only [decide_eq_true_eq] at h2 ⊢
    exact h2
  rw [h1, Option.none_or]
  simp

theorem setColumn_mem_cols (df : DF) (c : String) (f : Row → Value) :
    c ∈ (df.setColumn c f).cols := by
  unfold DF.setColumn
  by_cases h : c ∈ df.cols
  · simp [h]
  · simp [h]

theorem ensure_ok_iff (required : List String) (df : DF) :
    ensure_df_contains required df = .ok () ↔ ∀ c ∈ required, c ∈ df.cols := by
  unfold ensure_df_contains
  split
  next h =>
    simp only [List.all_eq_true, decide_eq_true_eq] at h
    exact iff_of_true rfl h
  next h =>
    simp only [List.all_eq_true, decide_eq_true_eq] at h
    exact iff_of_false (fun hh => Except.noConfusion hh) h

theorem ensure_error_of_missing {required : List String} {df : DF} {c : String}
    (hc : c ∈ required) (hnc : c ∉ df.cols) :
    ensure_df_contains required df = .error "validation error: missing required columns" := by
  have h : ¬ (required.all (fun c2 => decide (c2 ∈ df.cols)) = true) := by
    rw [List.all_eq_true]
    intro hall
    exact hnc (by simpa using hall c hc)
  unfold ensure_df_contains
  rw [if_neg h]

/-- The spec's concrete scenario table: two word rows in paragraph 1, with
the coordinate columns. -/
def scenarioTable : DF :=
  { cols := ["word_id", "sentence_id", "paragraph_id"],
    rows := [[("word_id", Value.int 0), ("sentence_id", Value.int 0), ("paragraph_id", Value.int 1)],
             [("word_id", Value.int 1), ("sentence_id", Value.int 0), ("paragraph_id", Value.int 1)]] }

/-- An algorithm that requires the column `X` and does not override the inner
step. -/
def noXAlg : NlpAlgorithm :=
  { status_column := "status", suggest_column := none, required_columns := ["X"] }

/-- An analyzer that requires the column `X` and does not override the inner
step. -/
def anX : NlpAnalyzer :=
  { join_by := ["word_id"], required_columns := ["X"] }

/-- An algorithm whose inner step leaves the table as it is and raises
nothing. -/
def idAlg : NlpAlgorithm :=
  { status_column := "status", suggest_column := none, required_columns := [],
    _run_inner := fun d => (d, none) }

/-- C2: `put_check_requested` adds a boolean column `check_requested` to the
(mutated and returned) table; with no paragraph set every row is marked
true, and with a set `s` a row whose `paragraph_id` is `p` is marked
`p ∈ s`; on the two-row table with `paragraph_id = [1,1]` the set `{2}`
yields `[false, false]` and the default yields `[true, true]`. -/
theorem put_check_requested_marks_rows (df : DF) (s : List Value) :
    "check_requested" ∈ (NlpAlgorithm.put_check_requested df none).cols
    ∧ "check_requested" ∈ (NlpAlgorithm.put_check_requested df (some s)).cols
    ∧ List.Forall₂ (fun _ r2 => Row.get r2 "check_requested" = some (Value.bool true))
        df.rows (NlpAlgorithm.put_check_requested df none).rows
    ∧ List.Forall₂ (fun r1 r2 => ∀ p, Row.get r1 "paragraph_id" = some p →
          Row.get r2 "check_requested" = some (Value.bool (decide (p ∈ s))))
        df.rows (NlpAlgorithm.put_check_requested df (some s)).rows
    ∧ (NlpAlgorithm.put_check_requested scenarioTable (some [Value.int 2])).rows.map
        (fun r => Row.get r "check_requested")
        = [some (Value.bool false), some (Value.bool false)]
    ∧ (NlpAlgorithm.put_check_requested scenarioTable none).rows.map
        (fun r => Row.get r "check_requested")
        = [some (Value.bool true), some (Value.bool true)] := by
  refine ⟨setColumn_mem_cols df _ _, setColumn_mem_cols df _ _, ?_, ?_, by decide, by decide⟩
  · exact forall2_map_self (fun r _ => Row.get_set_self r _ _)
  · apply forall2_map_self
    intro r _ p hp
    simp only [hp, Option.getD_some]
    exact Row.get_set_self r _ _

/-- C2 witness: the concrete two-row scenario, via the theorem. -/
theorem put_check_requested_marks_rows_witness :
    (NlpAlgorithm.put_check_requested scenarioTable (some [Value.int 2])).rows.map
        (fun r => Row.get r "check_requested")
        = [some (Value.bool false), some (Value.bool false)]
    ∧ (NlpAlgorithm.put_check_requested scenarioTable none).rows.map
        (fun r => Row.get r "check_requested")
        = [some (Value.bool true), some (Value.bool true)] :=
  ⟨(put_check_requested_marks_rows scenarioTable [Value.int 2]).2.2.2.2.1,
   (put_check_requested_marks_rows scenarioTable [Value.int 2]).2.2.2.2.2⟩

/-- C5: `run` performs `put_check_requested`, then `validate_input`, then the
abstract inner step, in that order: when validation of the marked table
succeeds, `run` on the original table equals the inner step applied to the
table produced by `put_check_requested` (the inner step sees the marked
table; the table state the caller ends up with is the one the inner step
wrote). -/
theorem run_order_spec (alg : NlpAlgorithm) (df : DF)
    (h : alg.validate_input (NlpAlgorithm.put_check_requested df none) = .ok ()) :
    alg.run df = alg._run_inner (NlpAlgorithm.put_check_requested df none) := by
  simp only [NlpAlgorithm.run, h]

/-- C5 witness: a table carrying only the coordinate columns (in particular
no `check_requested` column) passes the validation inside `run` because
`put_check_requested` ran first, and the inner step receives the marked
table. -/
theorem run_order_spec_witness :
    idAlg.validate_input (NlpAlgorithm.put_check_requested scenarioTable none) = .ok ()
    ∧ idAlg.run scenarioTable
        = idAlg._run_inner (NlpAlgorithm.put_check_requested scenarioTable none) :=
  ⟨rfl, run_order_spec idAlg scenarioTable rfl⟩

/-- C1 counterexample: on a table with only the coordinate columns and an
algorithm requiring the column `X`, `run` raises the validation error, yet
the table the caller holds is no longer the input table: `put_check_requested`
already added the `check_requested` column before validation ran. -/
theorem validationError_after_table_modified :
    (noXAlg.run scenarioTable).2.isSome = true
    ∧ (noXAlg.run scenarioTable).1 ≠ scenarioTable := by
  refine ⟨by decide, by decide⟩

/-- C1 amended: a missing required column makes the processing calls fail
with the validation error before any inner (analysis) step runs; for
`NlpAnalyzer.analyze`/`apply` the input table is untouched, but for
`NlpAlgorithm.run` the failure is raised only after `put_check_requested` has
already written the `check_requested` column, so the caller's table is the
marked table, not the original. -/
theorem validation_failure_ordering :
    (∀ (an : NlpAnalyzer) (df : DF) (c : String),
        c ∈ WordCoordinates ++ an.required_columns → c ∉ df.cols →
        an.analyze df = .error "validation error: missing required columns"
        ∧ an.apply df = .error "validation error: missing required columns")
    ∧ (∀ (alg : NlpAlgorithm) (df : DF) (c : String),
        c ∈ WordCoordinates ++ ["check_requested"] ++ alg.required_columns →
        c ∉ (NlpAlgorithm.put_check_requested df none).cols →
        (alg.run df).1 = NlpAlgorithm.put_check_requested df none
        ∧ (alg.run df).2 = some "validation error: missing required columns") := by
  constructor
  · intro an df c hc hnc
    have he : an.validate_input df = .error "validation error: missing required columns" :=
      ensure_error_of_missing hc hnc
    have ha : an.analyze df = .error "validation error: missing required columns" := by
      simp only [NlpAnalyzer.analyze, he]
    exact ⟨ha, by simp only [NlpAnalyzer.apply, ha]⟩
  · intro alg df c hc hnc
    have he : alg.validate_input (NlpAlgorithm.put_check_requested df none)
        = .error "validation error: missing required columns" :=
      ensure_error_of_missing hc hnc
    constructor
    · simp only [NlpAlgorithm.run, he]
    · simp only [NlpAlgorithm.run, he]

/-- C1 amended witness: the concrete algorithm and analyzer requiring `X` on
the two-row coordinate table. -/
theorem validation_failure_ordering_witness :
    ("X" ∈ WordCoordinates ++ anX.required_columns
      ∧ "X" ∉ scenarioTable.cols
      ∧ anX.analyze scenarioTable = .error "validation error: missing required columns"
      ∧ anX.apply scenarioTable = .error "validation error: missing required columns")
    ∧ ("X" ∈ WordCoordinates ++ ["check_requested"] ++ noXAlg.required_columns
      ∧ "X" ∉ (NlpAlgorithm.put_check_requested scenarioTable none).cols
      ∧ (noXAlg.run scenarioTable).1 = NlpAlgorithm.put_check_requested scenarioTable none
      ∧ (noXAlg.run scenarioTable).2 = some "validation error: missing required columns") :=
  ⟨⟨by decide, by decide,
    (validation_failure_ordering.1 anX scenarioTable "X" (by decide) (by decide)).1,
    (validation_failure_ordering.1 anX scenarioTable "X" (by decide) (by decide)).2⟩,
   ⟨by decide, by decide,
    (validation_failure_ordering.2 noXAlg scenarioTable "X" (by decide) (by decide)).1,
    (validation_failure_ordering.2 noXAlg scenarioTable "X" (by decide) (by decide)).2⟩⟩

/-- C6: a subclass overriding neither abstract inner step fails with the
not-implemented error when invoked on a valid table: `analyze` and `apply`
for analyzers, `run` for algorithms (whose raised error leaves the marked
table in the caller's hands). -/
theorem unimplemented_inner_raises :
    (∀ (jb rc : List String) (df : DF),
        NlpAnalyzer.validate_input { join_by := jb, required_columns := rc } df = .ok () →
        NlpAnalyzer.analyze { join_by := jb, required_columns := rc } df
          = .error notImplementedMsg
        ∧ NlpAnalyzer.apply { join_by := jb, required_columns := rc } df
          = .error notImplementedMsg)
    ∧ (∀ (st : String) (sg : Option String) (rc : List String) (df : DF),
        NlpAlgorithm.validate_input
          { status_column := st, suggest_column := sg, required_columns := rc }
          (NlpAlgorithm.put_check_requested df none) = .ok () →
        NlpAlgorithm.run { status_column := st, suggest_column := sg, required_columns := rc } df
          = (NlpAlgorithm.put_check_requested df none, some notImplementedMsg)) := by
  constructor
  · intro jb rc df h
    have ha : NlpAnalyzer.analyze { join_by := jb, required_columns := rc } df
        = .error notImplementedMsg := by
      simp only [NlpAnalyzer.analyze, h]
    exact ⟨ha, by simp only [NlpAnalyzer.apply, ha]⟩
  · intro st sg rc df h
    simp only [NlpAlgorithm.run, h]

/-- C6 witness: the default inner steps raise on the two-row coordinate
table, which passes validation. -/
theorem unimplemented_inner_raises_witness :
    (NlpAnalyzer.validate_input { join_by := ["word_id"], required_columns := [] } scenarioTable
        = .ok ()
      ∧ NlpAnalyzer.analyze { join_by := ["word_id"], required_columns := [] } scenarioTable
        = .error notImplementedMsg
      ∧ NlpAnalyzer.apply { join_by := ["word_id"], required_columns := [] } scenarioTable
        = .error notImplementedMsg)
    ∧ (NlpAlgorithm.validate_input
        { status_column := "st", suggest_column := none, required_columns := [] }
        (NlpAlgorithm.put_check_requested scenarioTable none) = .ok ()
      ∧ NlpAlgorithm.run
          { status_column := "st", suggest_column := none, required_columns := [] } scenarioTable
        = (NlpAlgorithm.put_check_requested scenarioTable none, some notImplementedMsg)) :=
  ⟨⟨rfl,
    (unimplemented_inner_raises.1 ["word_id"] [] scenarioTable rfl).1,
    (unimplemented_inner_raises.1 ["word_id"] [] scenarioTable rfl).2⟩,
   ⟨rfl,
    unimplemented_inner_raises.2 "st" none [] scenarioTable rfl⟩⟩

/-- C10: `PyMorphAnalyzer` overrides the inner step with an empty stub, so on
a valid table `analyze` returns no table (Python `None`) and raises no
not-implemented error. -/
theorem pymorph_analyze_returns_none (df : DF)
    (h : PyMorphAnalyzer.validate_input df = .ok ()) :
    PyMorphAnalyzer.analyze df = .ok none := by
  simp only [NlpAnalyzer.analyze, h]
  rfl

/-- C10 witness: the two-row coordinate table is valid for `PyMorphAnalyzer`
and `analyze` returns `None`. -/
theorem pymorph_analyze_returns_none_witness :
    PyMorphAnalyzer.validate_input scenarioTable = .ok ()
    ∧ PyMorphAnalyzer.analyze scenarioTable = .ok none :=
  ⟨rfl, pymorph_analyze_returns_none scenarioTable rfl⟩

/-- C9: `run_on_text` and `run_on_string` ignore their `paragraphs_to_check`
argument: for every algorithm, text and paragraph set the result is the one
obtained with the default `None`, because `run` invokes `put_check_requested`
with its default argument and the parameter is never forwarded. -/
theorem run_on_text_ignores_paragraphs (alg : NlpAlgorithm) (text : List String)
    (s : String) (paragraphs : Option (List Value)) :
    alg.run_on_text text paragraphs = alg.run_on_text text none
    ∧ alg.run_on_string s paragraphs = alg.run_on_string s none :=
  ⟨rfl, rfl⟩

/-- C7: `analyze` pulls the table from the data source and delegates to
`analyze_dataframe`, and `df_to_featurization_job` wraps the table in a mock
data source and delegates to `source_to_featurization_job` (pure
delegation). -/
theorem delegation_spec (p : NlpAnalyzationPipeline) (source : DataSource) (df : DF) :
    p.analyze source = p.analyze_dataframe source.get_data
    ∧ p.df_to_featurization_job df = p.source_to_featurization_job (MockDfDataSource df) :=
  ⟨rfl, rfl⟩

/-- A table is well formed when every row carries exactly the declared
columns, in order. -/
def DF.WellFormed (df : DF) : Prop :=
  ∀ r ∈ df.rows, r.map (fun p => p.1) = df.cols

/-- An analyzer-output table is well formed when every data row carries
exactly the declared derived columns, in order. -/
def OutDF.WellFormed (out : OutDF) : Prop :=
  ∀ kr ∈ out.rows, kr.2.map (fun p => p.1) = out.cols

instance (df : DF) : Decidable df.WellFormed := by
  unfold DF.WellFormed
  infer_instance

instance (out : OutDF) : Decidable out.WellFormed := by
  unfold OutDF.WellFormed
  infer_instance

/-- Projection of a table onto the columns in `cs`. -/
def DF.restrict (df : DF) (cs : List String) : DF :=
  { cols := df.cols.filter (fun c => decide (c ∈ cs)),
    rows := df.rows.map (fun r => r.filter (fun p => decide (p.1 ∈ cs))) }

theorem joinRow_get_left {r : Row} {c : String} {v : Value} (keyCols : List String)
    (other : OutDF) (hv : Row.get r c = some v) :
    Row.get (joinRow keyCols other r) c = some v := by
  unfold joinRow
  split
  · exact alistGet_append_of_some _ hv
  · exact alistGet_append_of_some _ hv

theorem joinRow_get_unmatched {r : Row} {keyCols : List String} {other : OutDF} {c : String}
    (hkey : keyCols.map (fun c2 => (Row.get r c2).getD Value.null)
      ∉ other.rows.map (fun kr => kr.1))
    (hc : c ∈ other.cols) (hn : Row.get r c = none) :
    Row.get (joinRow keyCols other r) c = some Value.null := by
  unfold joinRow
  rw [find?_key_of_not_mem hkey]
  show alistGet (r ++ other.cols.map (fun c2 => (c2, Value.null))) c = some Value.null
  rw [alistGet_append_of_none _ hn, alistGet_map_null hc]

theorem joinRow_filter_restrict {r : Row} {keyCols : List String} {other : OutDF}
    {cs : List String}
    (hr : ∀ p ∈ r, p.1 ∈ cs)
    (hother : other.WellFormed)
    (hdisj : ∀ c ∈ other.cols, c ∉ cs) :
    (joinRow keyCols other r).filter (fun p => decide (p.1 ∈ cs)) = r := by
  have h1 : r.filter (fun p => decide (p.1 ∈ cs)) = r :=
    List.filter_eq_self.mpr (fun a ha => by simpa using hr a ha)
  unfold joinRow
  split
  next kr hf =>
    rw [List.filter_append, h1]
    have hkeys := hother kr (List.mem_of_find?_eq_some hf)
    have h2 : kr.2.filter (fun p => decide (p.1 ∈ cs)) = [] := by
      apply List.filter_eq_nil_iff.mpr
      intro a ha
      have hmem : a.1 ∈ other.cols := by
        rw [← hkeys]
        exact List.mem_map_of_mem _ ha
      simpa using hdisj a.1 hmem
    rw [h2, List.append_nil]
  next hf =>
    rw [List.filter_append, h1]
    have h2 : (other.cols.map (fun c => (c, Value.null))).filter
        (fun p => decide (p.1 ∈ cs)) = [] := by
      apply List.filter_eq_nil_iff.mpr
      intro a ha
      rcases List.mem_map.mp ha with ⟨c, hc, rfl⟩
      simpa using hdisj c hc
    rw [h2, List.append_nil]

/-- C3: on a valid input table, `apply` succeeds with a table of the same row
count that keeps every original column and every original cell value, and in
which a row whose join-key tuple is absent from the analyzer's output carries
null in each of the analyzer's derived columns. -/
theorem apply_preserves_rows_and_joins (an : NlpAnalyzer) (df : DF) (out : OutDF)
    (h : an.analyze df = .ok (some out)) :
    ∃ res, an.apply df = .ok res
      ∧ res.rows.length = df.rows.length
      ∧ (∀ c ∈ df.cols, c ∈ res.cols)
      ∧ List.Forall₂ (fun r1 r2 =>
            (∀ c v, Row.get r1 c = some v → Row.get r2 c = some v)
            ∧ (an.join_by.map (fun c => (Row.get r1 c).getD Value.null)
                 ∉ out.rows.map (fun kr => kr.1) →
               ∀ c ∈ out.cols, Row.get r1 c = none → Row.get r2 c = some Value.null))
          df.rows res.rows := by
  refine ⟨DF.join df an.join_by out, ?_, ?_, ?_, ?_⟩
  · simp only [NlpAnalyzer.apply, h]
  · simp [DF.join]
  · intro c hc
    simp only [DF.join, List.mem_append]
    exact Or.inl hc
  · show List.Forall₂ _ df.rows (df.rows.map (joinRow an.join_by out))
    apply forall2_map_self
    intro r _
    exact ⟨fun c v hv => joinRow_get_left _ _ hv,
      fun hkey c hc hn => joinRow_get_unmatched hkey hc hn⟩

/-- The derived-columns table a concrete test analyzer produces: one derived
column `X`, indexed by the single join key `word_id = 0`. -/
def wOut : OutDF :=
  { cols := ["X"], rows := [([Value.int 0], [("X", Value.str "a")])] }

/-- A second derived-columns table: one derived column `Y` and no data row. -/
def wOut2 : OutDF :=
  { cols := ["Y"], rows := [] }

/-- A concrete analyzer joining by `word_id` whose inner step returns
`wOut`. -/
def wAn : NlpAnalyzer :=
  { join_by := ["word_id"], required_columns := [], _analyze_inner := fun _ => .ok (some wOut) }

/-- A concrete analyzer joining by `word_id` whose inner step returns
`wOut2`. -/
def wAn2 : NlpAnalyzer :=
  { join_by := ["word_id"], required_columns := [], _analyze_inner := fun _ => .ok (some wOut2) }

/-- C3 witness: the concrete analyzer on the two-row table (the second row's
key `word_id = 1` is absent from the output, so its `X` cell is null). -/
theorem apply_preserves_rows_and_joins_witness :
    wAn.analyze scenarioTable = .ok (some wOut)
    ∧ (∃ res, wAn.apply scenarioTable = .ok res
      ∧ res.rows.length = scenarioTable.rows.length
      ∧ (∀ c ∈ scenarioTable.cols, c ∈ res.cols)
      ∧ List.Forall₂ (fun r1 r2 =>
            (∀ c v, Row.get r1 c = some v → Row.get r2 c = some v)
            ∧ (wAn.join_by.map (fun c => (Row.get r1 c).getD Value.null)
                 ∉ wOut.rows.map (fun kr => kr.1) →
               ∀ c ∈ wOut.cols, Row.get r1 c = none → Row.get r2 c = some Value.null))
          scenarioTable.rows res.rows) :=
  ⟨rfl, apply_preserves_rows_and_joins wAn scenarioTable wOut rfl⟩

/-- C8: `apply` on a valid, well-formed table whose columns are disjoint from
the analyzer's derived columns returns a new, wider table (its columns are
the original ones followed by the derived ones) whose projection onto the
original columns is exactly the input table; the input table itself is
untouched, the embedding of every analyzer operation being a pure function of
the table state. -/
theorem apply_no_mutation_spec (an : NlpAnalyzer) (df : DF) (out : OutDF)
    (hdf : df.WellFormed) (hout : out.WellFormed)
    (hdisj : ∀ c ∈ out.cols, c ∉ df.cols)
    (h : an.analyze df = .ok (some out)) :
    ∃ res, an.apply df = .ok res
      ∧ res.cols = df.cols ++ out.cols
      ∧ res.restrict df.cols = df := by
  refine ⟨DF.join df an.join_by out, by simp only [NlpAnalyzer.apply, h], rfl, ?_⟩
  have hcols : (df.cols ++ out.cols).filter (fun c => decide (c ∈ df.cols)) = df.cols := by
    rw [List.filter_append]
    have h1 : df.cols.filter (fun c => decide (c ∈ df.cols)) = df.cols :=
      List.filter_eq_self.mpr (fun a ha => by simpa using ha)
    have h2 : out.cols.filter (fun c => decide (c ∈ df.cols)) = [] :=
      List.filter_eq_nil_iff.mpr (fun a ha => by simpa using hdisj a ha)
    rw [h1, h2, List.append_nil]
  have hrows : (df.rows.map (joinRow an.join_by out)).map
      (fun r => r.filter (fun p => decide (p.1 ∈ df.cols))) = df.rows := by
    rw [List.map_map]
    apply map_eq_self_of_fix
    intro r hr
    have hrk : ∀ p ∈ r, p.1 ∈ df.cols := by
      intro p hp
      rw [← hdf r hr]
      exact List.mem_map_of_mem _ hp
    exact joinRow_filter_restrict hrk hout hdisj
  show DF.mk _ _ = df
  rw [show df = DF.mk df.cols df.rows from rfl, DF.mk.injEq]
  exact ⟨hcols, hrows⟩

/-- C8 witness: the concrete analyzer on the well-formed two-row table. -/
theorem apply_no_mutation_spec_witness :
    scenarioTable.WellFormed ∧ wOut.WellFormed
    ∧ (∀ c ∈ wOut.cols, c ∉ scenarioTable.cols)
    ∧ wAn.analyze scenarioTable = .ok (some wOut)
    ∧ (∃ res, wAn.apply scenarioTable = .ok res
      ∧ res.cols = scenarioTable.cols ++ wOut.cols
      ∧ res.restrict scenarioTable.cols = scenarioTable) :=
  ⟨by decide, by decide, by decide, rfl,
   apply_no_mutation_spec wAn scenarioTable wOut (by decide) (by decide) (by decide) rfl⟩

theorem dictInsert_of_not_mem {α : Type} {m : List (String × α)} {k : String} {v : α}
    (h : k ∉ m.map (fun p => p.1)) :
    dictInsert m k v = m ++ [(k, v)] := by
  have hc : ¬ (m.any (fun p => decide (p.1 = k)) = true) := by
    rw [List.any_eq_true]
    rintro ⟨p, hp, hpk⟩
    rw [decide_eq_true_eq] at hpk
    exact h (List.mem_map.mpr ⟨p, hp, hpk⟩)
  unfold dictInsert
  rw [if_neg hc]

theorem analyzeDfLoop_spec (df : DF) :
    ∀ (ps : List (String × NlpAnalyzer)) (acc m : List (String × DF)),
      analyzeDfLoop df ps acc = .ok m →
      (ps.map (fun p => p.1)).Nodup →
      (∀ k ∈ ps.map (fun p => p.1), k ∉ acc.map (fun p => p.1)) →
      m.map (fun p => p.1) = acc.map (fun p => p.1) ++ ps.map (fun p => p.1)
      ∧ (∀ k v, dictGet acc k = some v → k ∉ ps.map (fun p => p.1) → dictGet m k = some v)
      ∧ (∀ pr ∈ ps, ∃ out, pr.2.apply df = .ok out ∧ dictGet m pr.1 = some out) := by
  intro ps
  induction ps with
  | nil =>
    intro acc m hm _ _
    simp only [analyzeDfLoop] at hm
    injection hm with hm2
    subst hm2
    exact ⟨by simp, fun _ _ hv _ => hv, by simp⟩
  | cons pr rest ih =>
    intro acc m hm hnd hdisj
    cases ha : pr.2.apply df with
    | error e =>
      simp only [analyzeDfLoop, ha] at hm
      exact Except.noConfusion hm
    | ok out0 =>
      simp only [analyzeDfLoop, ha] at hm
      have hk0 : pr.1 ∉ acc.map (fun p => p.1) :=
        hdisj pr.1 (by simp)
      have hins : dictInsert acc pr.1 out0 = acc ++ [(pr.1, out0)] :=
        dictInsert_of_not_mem hk0
      simp only [List.map_cons, List.nodup_cons] at hnd
      obtain ⟨hk0r, hndr⟩ := hnd
      have hdisj2 : ∀ k ∈ rest.map (fun p => p.1),
          k ∉ (dictInsert acc pr.1 out0).map (fun p => p.1) := by
        intro k hk
        rw [hins, List.map_append, List.mem_append]
        rintro (hka | hkb)
        · exact hdisj k (by rw [List.map_cons]; exact List.mem_cons_of_mem _ hk) hka
        · simp only [List.map_cons, List.map_nil, List.mem_singleton] at hkb
          subst hkb
          exact hk0r hk
      obtain ⟨ihmap, ihpres, ihall⟩ := ih (dictInsert acc pr.1 out0) m hm hndr hdisj2
      refine ⟨?_, ?_, ?_⟩
      · rw [ihmap, hins, List.map_append, List.map_cons]
        simp
      · intro k v hv hk
        simp only [List.map_cons, List.mem_cons, not_or] at hk
        apply ihpres k v _ hk.2
        rw [hins]
        exact alistGet_append_of_some _ hv
      · intro q hq
        rcases List.mem_cons.mp hq with hq1 | hq2
        · rw [hq1]
          refine ⟨out0, ha, ?_⟩
          apply ihpres pr.1 out0 _ hk0r
          rw [hins]
          have hnone : dictGet acc pr.1 = none := alistGet_of_not_mem_keys hk0
          show alistGet (acc ++ [(pr.1, out0)]) pr.1 = some out0
          rw [alistGet_append_of_none _ hnone]
          simp [alistGet]
        · exact ihall q hq2

/-- The pipeline of two analyzers registered under the same name. -/
def dupPipeline : NlpAnalyzationPipeline :=
  { analyzers := [("a", wAn), ("a", wAn2)] }

/-- The pipeline of the two analyzers under distinct names. -/
def distinctPipeline : NlpAnalyzationPipeline :=
  { analyzers := [("a", wAn), ("b", wAn2)] }

/-- C4 counterexample: a pipeline built from two (name, analyzer) pairs that
share a name yields a single mapping entry (the second analyzer's output
overwrote the first), not two. -/
theorem analyze_dataframe_duplicate_names :
    dupPipeline.analyzers.length = 2
    ∧ dupPipeline.analyze_dataframe scenarioTable
        = .ok [("a", DF.join scenarioTable ["word_id"] wOut2)]
    ∧ (DF.join scenarioTable ["word_id"] wOut2)
        ≠ (DF.join scenarioTable ["word_id"] wOut) := by
  refine ⟨rfl, rfl, by decide⟩

/-- C4 amended: for a pipeline built from N (name, analyzer) pairs with
pairwise distinct names, a successful `analyze_dataframe` returns exactly N
entries keyed by the supplied names, and each name maps to that analyzer's
`apply` on the same original input table (independent, not chained). -/
theorem analyze_dataframe_distinct_names (p : NlpAnalyzationPipeline) (df : DF)
    (m : List (String × DF))
    (hnd : (p.analyzers.map (fun pr => pr.1)).Nodup)
    (hok : p.analyze_dataframe df = .ok m) :
    m.length = p.analyzers.length
    ∧ m.map (fun pr => pr.1) = p.analyzers.map (fun pr => pr.1)
    ∧ ∀ pr ∈ p.analyzers, ∃ out, pr.2.apply df = .ok out ∧ dictGet m pr.1 = some out := by
  obtain ⟨hmap, _, hall⟩ := analyzeDfLoop_spec df p.analyzers [] m hok hnd (by simp)
  have hmap2 : m.map (fun pr => pr.1) = p.analyzers.map (fun pr => pr.1) := by
    simpa using hmap
  refine ⟨?_, hmap2, hall⟩
  have hlen := congrArg List.length hmap2
  simpa using hlen

/-- C4 amended witness: the two-analyzer pipeline with distinct names on the
two-row table. -/
theorem analyze_dataframe_distinct_names_witness :
    (distinctPipeline.analyzers.map (fun pr => pr.1)).Nodup
    ∧ distinctPipeline.analyze_dataframe scenarioTable
        = .ok [("a", DF.join scenarioTable ["word_id"] wOut),
               ("b", DF.join scenarioTable ["word_id"] wOut2)]
    ∧ ([("a", DF.join scenarioTable ["word_id"] wOut),
        ("b", DF.join scenarioTable ["word_id"] wOut2)] : List (String × DF)).length
        = distinctPipeline.analyzers.length
    ∧ ([("a", DF.join scenarioTable ["word_id"] wOut),
        ("b", DF.join scenarioTable ["word_id"] wOut2)] : List (String × DF)).map
          (fun pr => pr.1)
        = distinctPipeline.analyzers.map (fun pr => pr.1)
    ∧ ∀ pr ∈ distinctPipeline.analyzers, ∃ out, pr.2.apply scenarioTable = .ok out
        ∧ dictGet [("a", DF.join scenarioTable ["word_id"] wOut),
                   ("b", DF.join scenarioTable ["word_id"] wOut2)] pr.1 = some out := by
  have h := analyze_dataframe_distinct_names distinctPipeline scenarioTable
    [("a", DF.join scenarioTable ["word_id"] wOut),
     ("b", DF.join scenarioTable ["word_id"] wOut2)] (by decide) rfl
  exact ⟨by decide, rfl, h.1, h.2.1, h.2.2⟩

end GrammarRu
